import Mathlib

/-!
Shallow embedding of the multi-agent task coordination engine
(`src/services/multiAgentCoordinator.js`) of the J.A.R.V.I.S. repository.

The JavaScript class `MultiAgentCoordinator` is stateful and event-driven;
its methods are embedded here as pure functions.  External collaborators
(the registered agent instances, the security agent's confirmation channel,
the wall clock) are passed in explicitly through an environment record:
the coordinator treats them as opaque callees, so their behaviour is an
input of every function that consults them.  Step execution inside one
task is strictly sequential in the source (`executeTask` awaits each step
before starting the next, and `processTasks` awaits each task), which the
recursive definitions below mirror.
-/

namespace MAC

/-- Status of a task in the store: pending, executing, completed, failed. -/
inductive TaskStatus where
  | pending
  | executing
  | completed
  | failed
deriving DecidableEq, Repr

/-- The mutable `context` bag threaded through a task.  Only the fields the
coordinator itself reads are modelled; an `Option` value of `none` stands for
an absent (undefined) property on the JavaScript object. -/
structure Ctx where
  confirmedOperations : List String := []
  allowPartialFailure : Option Bool := none
  userEmotion : Option String := none
  authorizationLevel : Option String := none
deriving DecidableEq, Repr

/-- One instruction of a task plan.  `parameters` models the step's parameter
object as key/value pairs of strings (the coordinator only ever inspects the
string values, via `Object.values`). -/
structure Step where
  agent : String
  action : String
  parameters : List (String × String) := []
  critical : Bool := false
deriving DecidableEq, Repr

/-- A task plan, as produced by `createTaskPlan`: an intent tag and an ordered
list of steps (`plan.steps` in the source). -/
structure Plan where
  intent : String := ""
  steps : List Step := []
deriving DecidableEq, Repr

/-- A task record as stored in `this.activeTasks`.  `currentStep` is a model
annotation, not a source field: it records which step invocation (if any) of
this task is currently awaited, so that the number of in-flight step
invocations can be stated. -/
structure Task where
  id : String := ""
  type : String := ""
  priority : Int := 0
  input : String := ""
  context : Ctx := {}
  plan : Plan := {}
  status : TaskStatus := TaskStatus.pending
  created : Int := 0
  started : Option Int := none
  completed : Option Int := none
  timeout : Int := 60000
  currentStep : Option Nat := none
deriving DecidableEq, Repr

/-- Static per-kind configuration from `this.agentConfig` (the `capabilities`
arrays are never read by the coordinator logic and are omitted). -/
structure AgentCfg where
  priority : Int
  maxConcurrentTasks : Nat
  timeout : Int
  requiresConfirmation : Bool := false
deriving DecidableEq, Repr

/-- The eight entries of `this.agentConfig`, keyed by agent kind. -/
def agentConfig : String → Option AgentCfg
  | "reasoning" => some ⟨1, 2, 30000, false⟩
  | "planning" => some ⟨2, 3, 45000, false⟩
  | "os_control" => some ⟨3, 1, 20000, true⟩
  | "smart_home" => some ⟨4, 5, 15000, false⟩
  | "security" => some ⟨0, 1, 10000, false⟩
  | "emotion" => some ⟨5, 2, 5000, false⟩
  | "voice" => some ⟨6, 1, 8000, false⟩
  | "face" => some ⟨7, 1, 12000, false⟩
  | _ => none

/-- Whether the second character list is a prefix of the first. -/
def startsWith : List Char → List Char → Bool
  | _, [] => true
  | [], _ :: _ => false
  | a :: as, b :: bs => a == b && startsWith as bs

/-- Substring containment on character lists, the semantics of JavaScript
`String.prototype.includes`. -/
def containsSub : List Char → List Char → Bool
  | [], needle => needle.isEmpty
  | a :: rest, needle => startsWith (a :: rest) needle || containsSub rest needle

/-- JavaScript `haystack.includes(needle)` on strings. -/
def strIncludes (s sub : String) : Bool := containsSub s.data sub.data

/-- JavaScript `String.prototype.toLowerCase` (ASCII): lower-case every
character.  Structurally recursive counterpart of `String.toLower`, whose
core implementation recurses on byte positions and does not reduce. -/
def toLowerStr (s : String) : String := String.mk (s.data.map Char.toLower)

instance {ε α : Type} [DecidableEq ε] [DecidableEq α] : DecidableEq (Except ε α)
  | Except.ok a, Except.ok b =>
    if h : a = b then Decidable.isTrue (by rw [h]) else Decidable.isFalse (by simp [h])
  | Except.ok _, Except.error _ => Decidable.isFalse (by simp)
  | Except.error _, Except.ok _ => Decidable.isFalse (by simp)
  | Except.error a, Except.error b =>
    if h : a = b then Decidable.isTrue (by rw [h]) else Decidable.isFalse (by simp [h])

/-- The value an agent resolves with.  `complete` is the truthiness of the
`complete` property on that value and `response` its `response` property. -/
structure AgentValue where
  complete : Bool := false
  response : Option String := none
deriving DecidableEq, Repr

/-- Outcome of `agent.execute(...)` raced against the descriptor timeout in
`withTimeout`: resolution, rejection with a message, or the timeout winning. -/
inductive InvokeResult where
  | ok (v : AgentValue)
  | err (msg : String)
  | timeout
deriving DecidableEq, Repr

/-- Observable external effects of executing one step: a confirmation request
sent to the security agent, or an invocation of the target agent. -/
inductive Event where
  | confirmRequest (taskId : String) (action : String)
  | invoke (agent : String) (action : String)
deriving DecidableEq, Repr

/-- Whether an event is a confirmation request. -/
def Event.isConfirmReq : Event → Bool
  | Event.confirmRequest _ _ => true
  | Event.invoke _ _ => false

/-- Whether an event is an agent invocation. -/
def Event.isInvoke : Event → Bool
  | Event.confirmRequest _ _ => false
  | Event.invoke _ _ => true

/-- Environment of a task execution: the set of registered agent kinds
(the keys of `this.agents`), the security agent's answer to
`requestConfirmation`, the raced outcome of each agent invocation, the
emotion agent's tone, and the wall clock at task start (`now`) and at result
compilation (`now2`). -/
structure Env where
  agents : List String := []
  confirm : Step → Bool := fun _ => false
  invoke : Step → InvokeResult := fun _ => InvokeResult.timeout
  emotionTone : String := "professional"
  now : Int := 0
  now2 : Int := 0

/-- A step outcome object as pushed into the `results` array.  The source
constructs exactly two literals, `{success: true, result, step}` and
`{success: false, error, step}`; `complete` models presence of a `complete`
property on the outcome object itself (it is `none`, i.e. absent, at both
construction sites). -/
structure StepOutcome where
  success : Bool
  result : Option AgentValue := none
  error : Option String := none
  step : Step
  complete : Option Bool := none
deriving DecidableEq, Repr

/-- The success outcome literal of `executeTaskStep`. -/
def mkSuccessOutcome (v : AgentValue) (step : Step) : StepOutcome :=
  { success := true, result := some v, error := none, step := step, complete := none }

/-- The failure outcome literal pushed by `executeTask` in its catch block. -/
def mkFailureOutcome (msg : String) (step : Step) : StepOutcome :=
  { success := false, result := none, error := some msg, step := step, complete := none }

/-- Source `getAgentActiveTasks`: the number of tasks in the store that are
executing and whose plan contains some step routed to the given agent kind. -/
def getAgentActiveTasks (st : List Task) (agentType : String) : Nat :=
  (st.filter (fun t =>
    t.status == TaskStatus.executing &&
    t.plan.steps.any (fun s => s.agent == agentType))).length

/-- Source `isAgentAvailable`: the kind must be registered and its active
count below `maxConcurrentTasks`.  A registered kind always has a config
entry (`registerAgent` refuses kinds outside `agentConfig`), so the `none`
branch is unreachable for registered kinds. -/
def isAgentAvailable (env : Env) (st : List Task) (agentType : String) : Bool :=
  if !(env.agents.contains agentType) then false
  else
    match agentConfig agentType with
    | some cfg => decide (getAgentActiveTasks st agentType < cfg.maxConcurrentTasks)
    | none => false

/-- The `sensitiveActions` list of `isSensitiveOperation`. -/
def sensitiveActions : List String :=
  ["format", "delete", "shutdown", "restart", "kill",
   "uninstall", "remove", "disable", "grant_access"]

/-- Source `isSensitiveOperation`: some sensitive action name occurs in the
lower-cased step action, or some string parameter value contains some
sensitive action name. -/
def isSensitiveOperation (step : Step) : Bool :=
  sensitiveActions.any (fun a =>
    strIncludes (toLowerStr step.action) a ||
    (step.parameters.map Prod.snd).any (fun p =>
      sensitiveActions.any (fun a2 => strIncludes (toLowerStr p) a2)))

/-- Source `confirmSensitiveOperation`, with its emitted confirmation request
(if any) made explicit: a prior confirmation of the exact action in the task
context short-circuits to true; otherwise, if a security agent is registered,
exactly one confirmation request is sent and its verdict returned; with no
security agent the operation is refused without any request. -/
def confirmSensitiveOperation (env : Env) (task : Task) (step : Step) :
    List Event × Bool :=
  if task.context.confirmedOperations.contains step.action then ([], true)
  else if env.agents.contains ("security") then
    ([Event.confirmRequest task.id step.action], env.confirm step)
  else ([], false)

/-- Source `canContinueOnError`: a critical step never continues; an error
message containing `Security` or `Authorization` never continues; otherwise
continue unless the context sets `allowPartialFailure` to exactly `false`. -/
def canContinueOnError (task : Task) (step : Step) (errMsg : String) : Bool :=
  if step.critical then false
  else if strIncludes errMsg ("Security") || strIncludes errMsg ("Authorization") then false
  else !(task.context.allowPartialFailure == some false)

/-- Source `executeTaskStep`, returning the emitted events together with the
step outcome or the thrown error message.  The checks run in source order:
registration, availability, sensitivity/confirmation, then the timed agent
invocation. -/
def executeTaskStep (env : Env) (st : List Task) (task : Task) (step : Step) :
    List Event × Except String StepOutcome :=
  if !(env.agents.contains step.agent) then
    ([], Except.error ("Agent not available: " ++ step.agent))
  else if !(isAgentAvailable env st step.agent) then
    ([], Except.error ("Agent " ++ step.agent ++ " is busy"))
  else
    let conf :=
      if isSensitiveOperation step then confirmSensitiveOperation env task step
      else ([], true)
    if !conf.2 then
      (conf.1, Except.error ("Sensitive operation requires confirmation"))
    else
      match env.invoke step with
      | InvokeResult.ok v =>
        (conf.1 ++ [Event.invoke step.agent step.action],
         Except.ok (mkSuccessOutcome v step))
      | InvokeResult.err m =>
        (conf.1 ++ [Event.invoke step.agent step.action], Except.error m)
      | InvokeResult.timeout =>
        (conf.1 ++ [Event.invoke step.agent step.action],
         Except.error ("Step timeout: " ++ step.action))

/-- The response tone computed at the top of `generateUnifiedResponse`:
taken from the emotion agent when one is registered, else professional.
The three response generators receive it but never use it, as in the source. -/
def responseTone (env : Env) : String :=
  if env.agents.contains ("emotion") then env.emotionTone else "professional"

/-- Source `generateSuccessResponse`.  On an empty results array the source
reads `results[-1].result`, a property access on `undefined`, which throws a
`TypeError`; that crash is modelled as the `Except.error` branch. -/
def generateSuccessResponse (_task : Task) (results : List StepOutcome)
    (_tone : String) : Except String String :=
  match results.getLast? with
  | none => Except.error ("TypeError: cannot read property result of undefined")
  | some last =>
    match last.result with
    | some v =>
      match v.response with
      | some resp =>
        if resp.isEmpty then Except.ok ("Task completed successfully, Sir.")
        else Except.ok resp
      | none => Except.ok ("Task completed successfully, Sir.")
    | none => Except.ok ("Task completed successfully, Sir.")

/-- Source `generatePartialSuccessResponse`. -/
def generatePartialSuccessResponse (_task : Task) (results : List StepOutcome)
    (_tone : String) : String :=
  "Task partially completed. " ++
    toString (results.filter (fun r => r.success)).length ++ " of " ++
    toString results.length ++ " steps succeeded, Sir."

/-- Source `generateFailureResponse`.  An absent or empty (falsy) error string
on the first failed outcome falls back to the generic message. -/
def generateFailureResponse (_task : Task) (results : List StepOutcome)
    (_tone : String) : String :=
  match results.find? (fun r => !r.success) with
  | some firstError =>
    match firstError.error with
    | some m =>
      if m.isEmpty then "Task failed to complete, Sir."
      else "Unable to complete the task. " ++ m ++ ", Sir."
    | none => "Task failed to complete, Sir."
  | none => "Task failed to complete, Sir."

/-- The three-way outcome classification of a results list, extracted from the
branch structure of `generateUnifiedResponse`: every outcome succeeded, some
but not every outcome succeeded, or no outcome succeeded. -/
inductive Classification where
  | success
  | partialSuccess
  | failure
deriving DecidableEq, Repr

/-- The classifier implicit in `generateUnifiedResponse`'s if/else chain. -/
def classifyResults (results : List StepOutcome) : Classification :=
  if results.all (fun r => r.success) then Classification.success
  else if results.any (fun r => r.success) then Classification.partialSuccess
  else Classification.failure

/-- Source `generateUnifiedResponse`: compute the tone, then dispatch on
whether every / some / no outcome succeeded. -/
def generateUnifiedResponse (env : Env) (task : Task) (results : List StepOutcome) :
    Except String String :=
  let tone := responseTone env
  if results.all (fun r => r.success) then generateSuccessResponse task results tone
  else if results.any (fun r => r.success) then
    Except.ok (generatePartialSuccessResponse task results tone)
  else Except.ok (generateFailureResponse task results tone)

/-- The aggregate object returned by `compileTaskResults`. -/
structure TaskResult where
  success : Bool
  primaryResult : Option AgentValue
  allResults : List StepOutcome
  successfulSteps : Nat
  failedSteps : Nat
  unifiedResponse : String
  executionTime : Int
deriving DecidableEq, Repr

/-- Source `compileTaskResults`.  The `success` flag is `length > 0` of the
successful outcomes; `primaryResult` is the last successful outcome's agent
value (null when none succeeded).  A crash inside the response generation
propagates as an error. -/
def compileTaskResults (env : Env) (task : Task) (results : List StepOutcome) :
    Except String TaskResult :=
  let successfulResults := results.filter (fun r => r.success)
  let failedResults := results.filter (fun r => !r.success)
  let primaryResult := (successfulResults.getLast?).bind (fun r => r.result)
  match generateUnifiedResponse env task results with
  | Except.error m => Except.error m
  | Except.ok unified =>
    Except.ok
      { success := decide (successfulResults.length > 0)
        primaryResult := primaryResult
        allResults := results
        successfulSteps := successfulResults.length
        failedSteps := failedResults.length
        unifiedResponse := unified
        executionTime := env.now2 - (task.started.getD 0) }

/-- Terminal state of one task execution: `completed` carries the compiled
result (the task is marked completed and `task_completed` emitted), `failed`
carries the internal results list and the thrown message (the throw escapes
`executeTask`, and `processTasks`' catch marks the task failed via
`handleTaskError` and emits `task_failed`). -/
inductive TaskFinal where
  | completed (results : List StepOutcome) (final : TaskResult)
  | failed (results : List StepOutcome) (errMsg : String)
deriving DecidableEq, Repr

/-- The list of step outcomes recorded before the run ended. -/
def TaskFinal.results : TaskFinal → List StepOutcome
  | TaskFinal.completed rs _ => rs
  | TaskFinal.failed rs _ => rs

/-- Whether the run ended with the task marked completed. -/
def TaskFinal.isCompleted : TaskFinal → Bool
  | TaskFinal.completed _ _ => true
  | TaskFinal.failed _ _ => false

/-- Tail of `executeTask` after the step loop: compile the results and mark
the task completed, unless compilation itself throws. -/
def finishTask (env : Env) (task : Task) (results : List StepOutcome) : TaskFinal :=
  match compileTaskResults env task results with
  | Except.ok fr => TaskFinal.completed results fr
  | Except.error m => TaskFinal.failed results m

/-- The step loop of `executeTask`, with the already-recorded outcomes
accumulated in reverse.  A successful outcome is pushed and then
`stepResult.complete` is tested for an early break; a thrown step error is
pushed as a failure outcome and the loop either continues or rethrows,
according to `canContinueOnError`. -/
def runSteps (env : Env) (st : List Task) (task : Task) :
    List Step → List StepOutcome → TaskFinal
  | [], acc => finishTask env task acc.reverse
  | s :: rest, acc =>
    match (executeTaskStep env st task s).2 with
    | Except.ok o =>
      if o.complete.getD false then finishTask env task (o :: acc).reverse
      else runSteps env st task rest (o :: acc)
    | Except.error m =>
      if canContinueOnError task s m then
        runSteps env st task rest (mkFailureOutcome m s :: acc)
      else TaskFinal.failed (mkFailureOutcome m s :: acc).reverse m

/-- Source `executeTask`: mark the task executing (it is already in the task
store, so availability checks during its own steps see it), then walk the
plan.  `otherTasks` are the other entries of `this.activeTasks`. -/
def executeTask (env : Env) (otherTasks : List Task) (task : Task) : TaskFinal :=
  let taskExec := { task with status := TaskStatus.executing, started := some env.now }
  let st := otherTasks ++ [taskExec]
  runSteps env st taskExec taskExec.plan.steps []

/-- Stable insertion used to model `Array.prototype.sort` with comparator
`(a, b) => a.priority - b.priority`: the inserted element keeps its position
relative to equal-priority elements already ordered after it. -/
def insFront (x : Task) : List Task → List Task
  | [] => [x]
  | u :: us => if u.priority < x.priority then u :: insFront x us else x :: u :: us

/-- A stable sort by ascending priority (insertion sort; JavaScript mandates
a stable sort, and any stable sort agrees with this one on the total
preorder given by the priority comparator). -/
def sortByPriority (l : List Task) : List Task := l.foldr insFront []

/-- Source `addTask` on the pending queue: push the task at the end, then
stably sort the whole queue by ascending priority.  (The source also inserts
the task into the task store; only the queue is relevant here.) -/
def addTask (queue : List Task) (t : Task) : List Task :=
  sortByPriority (queue ++ [t])

/-- What `processTasks` dequeues next: the head of the queue (`shift`). -/
def nextTask (queue : List Task) : Option Task := queue.head?

/-- The net effect on a priority-sorted queue of pushing `t` and stably
re-sorting: `t` lands after every task of priority at most its own. -/
def enqueue (t : Task) : List Task → List Task
  | [] => [t]
  | u :: us => if u.priority ≤ t.priority then u :: enqueue t us else t :: u :: us

/-- The dispatch order a queue must satisfy: strictly increasing priority,
or equal priority with earlier arrival (smaller `created`) first. -/
def queueOrder (a b : Task) : Prop :=
  a.priority < b.priority ∨ (a.priority = b.priority ∧ a.created < b.created)

instance : DecidableRel queueOrder := fun a b => by
  unfold queueOrder; infer_instance

/-- The sweep predicate of `cleanupCompletedTasks`: the task has a completion
timestamp (a `Date` object is always truthy) older than the fixed five-minute
retention window. -/
def taskExpired (now : Int) (t : Task) : Bool :=
  match t.completed with
  | some c => decide (now - c > 300000)
  | none => false

/-- Source `cleanupCompletedTasks` on the task store: delete exactly the
expired entries, leaving every other entry untouched. -/
def cleanupCompletedTasks (now : Int) (tasks : List Task) : List Task :=
  tasks.filter (fun t => !taskExpired now t)

/-- JavaScript `Map.prototype.set` on an association list: replace the value
of an existing key in place, else append the new binding. -/
def mapSet (m : List (String × Nat)) (k : String) (v : Nat) : List (String × Nat) :=
  match m with
  | [] => [(k, v)]
  | (k0, v0) :: rest => if k0 == k then (k0, v) :: rest else (k0, v0) :: mapSet rest k v

/-- JavaScript `Map.prototype.get` on an association list. -/
def mapGet (m : List (String × Nat)) (k : String) : Option Nat :=
  match m with
  | [] => none
  | (k0, v0) :: rest => if k0 == k then some v0 else mapGet rest k

/-- Source `registerAgent` on the `this.agents` map, with agent instances as
opaque identifiers: kinds outside `agentConfig` are refused, every other call
stores the instance unconditionally via `Map.set`.  (The capability table and
event listener registration carry no coordinator state and are omitted.) -/
def registerAgent (agents : List (String × Nat)) (agentType : String) (inst : Nat) :
    Except String (List (String × Nat)) :=
  match agentConfig agentType with
  | none => Except.error ("Unknown agent type: " ++ agentType)
  | some _ => Except.ok (mapSet agents agentType inst)

/-- The verdict of the security agent's `analyzeRequest`. -/
structure SecurityAnalysis where
  threatLevel : String := "low"
  requiresAuthorization : Bool := false
deriving DecidableEq, Repr

/-- Environment of a submission: whether a security agent is registered and
its verdict, whether a reasoning agent is registered and its plan (or thrown
error), the value of the `containsSensitiveData` regular-expression test on
the input, the generated task id, and the clock. -/
structure SubmitEnv where
  security : Option SecurityAnalysis := none
  reasoning : Option (Except String Plan) := none
  sensitiveData : Bool := false
  freshId : String := "task_1"
  now : Int := 0

/-- Source `performSecurityCheck`: consult the security agent when present
(high threat or missing authorization throws), then the sensitive-data test. -/
def performSecurityCheck (env : SubmitEnv) (context : Ctx) : Except String Unit :=
  (match env.security with
   | some a =>
     if a.threatLevel == "high" then Except.error ("Security threat detected")
     else if a.requiresAuthorization && (context.authorizationLevel == some "guest") then
       Except.error ("Authorization required")
     else Except.ok ()
   | none => Except.ok ()) >>= fun _ =>
  if env.sensitiveData then Except.error ("Sensitive data detected") else Except.ok ()

/-- The fallback plan of `createTaskPlan` when no reasoning agent exists. -/
def fallbackPlan : Plan :=
  { intent := "unknown"
    steps := [{ agent := "voice", action := "respond"
                parameters := [("message", "I need more information to help with that.")]
                critical := false }] }

/-- Source `createTaskPlan`: the reasoning agent's plan when registered
(propagating its thrown error), else the fallback plan. -/
def createTaskPlan (env : SubmitEnv) : Except String Plan :=
  match env.reasoning with
  | some r => r
  | none => Except.ok fallbackPlan

/-- Source `estimateTaskTime`: sum of the per-step agent timeouts (10000 for
kinds without a config entry), capped at the 60-second task timeout. -/
def estimateTaskTime (plan : Plan) : Int :=
  min (plan.steps.foldl (fun total s =>
        total + (match agentConfig s.agent with
                 | some cfg => cfg.timeout
                 | none => 10000)) 0) 60000

/-- Source `classifyError`: substring-based classification of a thrown
message into one of five reason classes. -/
def classifyError (msg : String) : String :=
  if strIncludes msg ("Security") then "security"
  else if strIncludes msg ("Authorization") then "authorization"
  else if strIncludes msg ("Timeout") then "timeout"
  else if strIncludes msg ("Network") then "network"
  else "unknown"

/-- The object `processUserRequest` resolves with. -/
inductive SubmitResult where
  | accepted (taskId : String) (message : String) (estimatedTime : Int)
  | rejected (taskId : String) (error : String) (reason : String)
deriving DecidableEq, Repr

/-- The `user_request` entry of `this.taskPriorities`. -/
def taskPriorityUserRequest : Int := 2

/-- Source `processUserRequest`: everything after the id generation runs in a
try/catch, so any thrown message becomes a rejection object with a classified
reason and nothing escapes.  On success the function returns the acceptance
object and the pending task handed to `addTask`. -/
def processUserRequest (env : SubmitEnv) (userInput : String) (context : Ctx) :
    SubmitResult × Option Task :=
  match performSecurityCheck env context >>= fun _ => createTaskPlan env with
  | Except.ok plan =>
    (SubmitResult.accepted env.freshId ("Request received and being processed")
       (estimateTaskTime plan),
     some { id := env.freshId, type := "user_request"
            priority := taskPriorityUserRequest
            input := userInput, context := context, plan := plan
            status := TaskStatus.pending, created := env.now, timeout := 60000 })
  | Except.error e =>
    (SubmitResult.rejected env.freshId e (classifyError e), none)

/-- Whether the model annotation says this task currently has a step
invocation in flight routed to the given agent kind. -/
def inFlightPred (agentType : String) (t : Task) : Bool :=
  match t.currentStep with
  | some i =>
    match t.plan.steps.get? i with
    | some s => s.agent == agentType
    | none => false
  | none => false

/-- Number of step invocations currently in flight for an agent kind, over a
snapshot of the task store annotated with each task's awaited step. -/
def inFlightCount (st : List Task) (agentType : String) : Nat :=
  st.countP (fun t => inFlightPred agentType t)

/-- A store snapshot is well formed when every awaited step belongs to an
executing task and indexes into that task's plan. -/
def wellFormedState (st : List Task) : Bool :=
  st.all (fun t =>
    match t.currentStep with
    | some i => t.status == TaskStatus.executing && decide (i < t.plan.steps.length)
    | none => true)

/-- The source executor is serial: `processTasks` awaits each `executeTask`,
which awaits each step invocation in turn, so at most one step invocation is
in flight at any time.  A store snapshot reflecting that schedule has at most
one task with an awaited step. -/
def singleFlight (st : List Task) : Bool :=
  decide (st.countP (fun t => t.currentStep.isSome) ≤ 1)

/-! Concrete values used by witnesses, counterexamples and failing inputs. -/

/-- A plain reasoning step (`plan_route`), not sensitive.  Reasoning has
capacity 2, so its availability check (which counts the executing task
itself) passes with one executing task and a reasoning invocation can
actually be in flight — unlike the capacity-1 kinds. -/
def stepReason : Step := { agent := "reasoning", action := "plan_route", parameters := [], critical := false }

/-- A plain smart-home step (`turn_on`), not sensitive. -/
def stepTurnOn : Step := { agent := "smart_home", action := "turn_on", parameters := [], critical := false }

/-- A sensitive smart-home step: its action contains `delete`. -/
def stepDelete : Step := { agent := "smart_home", action := "delete_scene", parameters := [], critical := false }

/-- An executing task whose awaited step is its reasoning step, while its
plan also contains a smart-home step. -/
def taskC1 : Task :=
  { id := "t1", plan := { intent := "x", steps := [stepReason, stepTurnOn] }
    status := TaskStatus.executing, currentStep := some 0 }

/-- Environment with the reasoning and smart-home agents registered. -/
def envC1 : Env := { agents := ["reasoning", "smart_home"] }

/-- An executing task awaiting its only (reasoning) step. -/
def taskC1w : Task :=
  { id := "w1", plan := { intent := "x", steps := [stepReason] }
    status := TaskStatus.executing, currentStep := some 0 }

/-- Monotonicity of `countP` under a pointwise implication on the list. -/
theorem countP_le_countP {α : Type} (p q : α → Bool) :
    ∀ l : List α, (∀ a ∈ l, p a = true → q a = true) →
      l.countP p ≤ l.countP q := by
  intro l
  induction l with
  | nil => intro _; simp
  | cons a as ih =>
    intro h
    rw [List.countP_cons, List.countP_cons]
    have hrest := ih (fun x hx hpx => h x (List.mem_cons_of_mem a hx) hpx)
    cases hp : p a with
    | false =>
      cases hq : q a <;> simp <;> omega
    | true =>
      have hqa := h a (List.mem_cons_self a as) hp
      simp [hqa]
      omega

/-- Every `agentConfig` entry has capacity at least one. -/
theorem agentConfig_maxConcurrent_pos (s : String) (cfg : AgentCfg)
    (h : agentConfig s = some cfg) : 1 ≤ cfg.maxConcurrentTasks := by
  unfold agentConfig at h
  split at h <;>
    first
      | exact Option.noConfusion h
      | (injection h with h1; subst h1; decide)

/-- Claim C1, amended.  The bound of the original claim holds: because the
executor is serial (at most one step invocation in flight at a time, and
every configured capacity is at least 1), the number of invocations in
flight for a kind never exceeds its `maxConcurrentTasks`.  The claim's
second, "equivalently" half fails: the active count used by the capacity
check, `getAgentActiveTasks`, counts the executing tasks whose plan contains
any step routed to the kind, which is an upper bound on the number of step
invocations actually in flight for that kind, but not equal to it. -/
theorem claim1_active_count_overapproximates (st : List Task) (agentType : String)
    (cfg : AgentCfg) (h : wellFormedState st = true)
    (hsf : singleFlight st = true) (hcfg : agentConfig agentType = some cfg) :
    inFlightCount st agentType ≤ cfg.maxConcurrentTasks ∧
    inFlightCount st agentType ≤ getAgentActiveTasks st agentType := by
  constructor
  · have hle1 : inFlightCount st agentType ≤
        st.countP (fun t => t.currentStep.isSome) := by
      rw [inFlightCount]
      apply countP_le_countP
      intro t _ hp
      simp only [inFlightPred] at hp
      cases hc : t.currentStep with
      | none => rw [hc] at hp; simp at hp
      | some i => simp [hc]
    have hsf' : st.countP (fun t => t.currentStep.isSome) ≤ 1 := by
      unfold singleFlight at hsf
      exact of_decide_eq_true hsf
    have hmax := agentConfig_maxConcurrent_pos agentType cfg hcfg
    omega
  have hq : getAgentActiveTasks st agentType =
      st.countP (fun t => t.status == TaskStatus.executing &&
        t.plan.steps.any (fun s => s.agent == agentType)) := by
    rw [getAgentActiveTasks, List.countP_eq_length_filter]
  rw [hq, inFlightCount]
  apply countP_le_countP
  intro t ht hp
  have hwf := (List.all_eq_true.mp h) t ht
  simp only [inFlightPred] at hp
  cases hc : t.currentStep with
  | none => rw [hc] at hp; simp at hp
  | some i =>
    have hp' : (match t.plan.steps.get? i with
        | some s => s.agent == agentType
        | none => false) = true := by
      rw [hc] at hp; exact hp
    have hwf' : (t.status == TaskStatus.executing &&
        decide (i < t.plan.steps.length)) = true := by
      rw [hc] at hwf; exact hwf
    rw [Bool.and_eq_true] at hwf'
    cases hg : t.plan.steps.get? i with
    | none => rw [hg] at hp'; simp at hp'
    | some s =>
      rw [hg] at hp'
      have hmem : s ∈ t.plan.steps := List.get?_mem hg
      rw [Bool.and_eq_true]
      exact ⟨hwf'.1, List.any_eq_true.mpr ⟨s, hmem, hp'⟩⟩

/-- Witness for C1 at a concrete serial, well-formed store with one
reasoning invocation in flight. -/
theorem claim1_witness :
    wellFormedState [taskC1w] = true ∧
    singleFlight [taskC1w] = true ∧
    agentConfig ("reasoning") = some ⟨1, 2, 30000, false⟩ ∧
    (inFlightCount [taskC1w] ("reasoning") ≤
       (⟨1, 2, 30000, false⟩ : AgentCfg).maxConcurrentTasks ∧
     inFlightCount [taskC1w] ("reasoning") ≤
       getAgentActiveTasks [taskC1w] ("reasoning")) :=
  ⟨by decide, by decide, by decide,
   claim1_active_count_overapproximates [taskC1w] ("reasoning")
     ⟨1, 2, 30000, false⟩ (by decide) (by decide) (by decide)⟩

/-- Counterexample to C1's "equivalently" half: a serial, well-formed store
holds one executing task awaiting its reasoning step (a reachable state —
reasoning has capacity 2 and the availability check, which counts the task
itself, passes) whose plan also holds a smart-home step.  No smart-home step
invocation is in flight, yet the capacity check's active count for
`smart_home` is 1. -/
theorem claim1_counterexample :
    wellFormedState [taskC1] = true ∧
    singleFlight [taskC1] = true ∧
    isAgentAvailable envC1 [taskC1] ("reasoning") = true ∧
    inFlightCount [taskC1] ("smart_home") = 0 ∧
    getAgentActiveTasks [taskC1] ("smart_home") = 1 := by decide

/-- A task whose plan starts with a sensitive, non-critical step and then
runs a plain step, under a default (empty) context. -/
def taskC2 : Task := { id := "t2", plan := { intent := "x", steps := [stepDelete, stepTurnOn] } }

/-- Environment with smart-home and security agents registered, where the
security agent denies every confirmation and the agent resolves normally. -/
def envC2 : Env :=
  { agents := ["smart_home", "security"], confirm := fun _ => false
    invoke := fun _ => InvokeResult.ok { complete := false, response := some ("ok") } }

/-- Environment with no registered agents. -/
def envW2 : Env := { agents := [] }

/-- A critical step routed to an unregistered kind. -/
def stepW2 : Step := { agent := "os_control", action := "shutdown_now", parameters := [], critical := true }

/-- A bare task used where only the context matters. -/
def taskW2 : Task := { id := "w2" }

/-- Claim C2, amended.  A failing step aborts the rest of the plan and fails
the task exactly when the step is critical, or the error message contains
`Security` or `Authorization`, or the context explicitly forbids partial
failure; the denied/timed-out confirmation message (`Sensitive operation
requires confirmation`) contains neither marker, so on a non-critical step
with default context execution continues instead. -/
theorem claim2_abort_policy (env : Env) (st : List Task) (task : Task) (s : Step)
    (rest : List Step) (acc : List StepOutcome) (msg : String)
    (herr : (executeTaskStep env st task s).2 = Except.error msg)
    (habort : s.critical = true ∨ strIncludes msg ("Security") = true ∨
      strIncludes msg ("Authorization") = true ∨
      task.context.allowPartialFailure = some false) :
    runSteps env st task (s :: rest) acc =
      TaskFinal.failed ((mkFailureOutcome msg s :: acc).reverse) msg := by
  have hcc : canContinueOnError task s msg = false := by
    unfold canContinueOnError
    rcases habort with h | h | h | h
    · simp [h]
    · cases hcrit : s.critical <;> simp [h, hcrit]
    · cases hcrit : s.critical <;> simp [h, hcrit]
    · cases hcrit : s.critical <;>
        cases h1 : strIncludes msg ("Security") <;>
        cases h2 : strIncludes msg ("Authorization") <;>
        simp [h, hcrit, h1, h2]
  simp only [runSteps, herr, hcc]
  simp

/-- Witness for C2 at a concrete critical step whose execution throws. -/
theorem claim2_witness :
    (executeTaskStep envW2 [] taskW2 stepW2).2 =
      Except.error ("Agent not available: os_control") ∧
    stepW2.critical = true ∧
    runSteps envW2 [] taskW2 [stepW2] [] =
      TaskFinal.failed
        ((mkFailureOutcome ("Agent not available: os_control") stepW2 ::
          ([] : List StepOutcome)).reverse)
        ("Agent not available: os_control") :=
  ⟨by decide, by decide,
   claim2_abort_policy envW2 [] taskW2 stepW2 [] []
     ("Agent not available: os_control") (by decide) (Or.inl (by decide))⟩

/-- Counterexample to C2 as stated: the confirmation of the sensitive first
step is denied, yet the second step still runs and the task is marked
completed rather than failed, because the step is not critical. -/
theorem claim2_counterexample :
    (executeTask envC2 [] taskC2).isCompleted = true ∧
    (executeTask envC2 [] taskC2).results.length = 2 ∧
    ((executeTask envC2 [] taskC2).results.head?.map (fun o => o.error)) =
      some (some ("Sensitive operation requires confirmation")) := by decide

/-- A non-critical step routed to the unregistered kind `automation`. -/
def stepUnreg : Step := { agent := "automation", action := "run_workflow", parameters := [], critical := false }

/-- A task whose first step targets an unregistered kind and whose second
step is a plain registered one. -/
def taskC4 : Task := { id := "t4", plan := { intent := "x", steps := [stepUnreg, stepTurnOn] } }

/-- Environment with only the smart-home agent registered. -/
def envC4 : Env :=
  { agents := ["smart_home"]
    invoke := fun _ => InvokeResult.ok { complete := false, response := some ("ok") } }

/-- A bare task for the C4 witness. -/
def taskW4 : Task := { id := "w4" }

/-- Claim C4, amended.  A step whose agent kind is not registered throws
`Agent not available` immediately, with no confirmation request and no agent
invocation; but the task fails fast only when the step is critical or the
context forbids partial failure — otherwise the failure is recorded as the
step's outcome and execution continues with the rest of the plan. -/
theorem claim4_unregistered_agent (env : Env) (st : List Task) (task : Task)
    (s : Step) (rest : List Step) (acc : List StepOutcome)
    (hreg : env.agents.contains s.agent = false) :
    executeTaskStep env st task s =
      ([], Except.error ("Agent not available: " ++ s.agent)) ∧
    (s.critical = false →
     task.context.allowPartialFailure ≠ some false →
     strIncludes ("Agent not available: " ++ s.agent) ("Security") = false →
     strIncludes ("Agent not available: " ++ s.agent) ("Authorization") = false →
     runSteps env st task (s :: rest) acc =
       runSteps env st task rest
         (mkFailureOutcome ("Agent not available: " ++ s.agent) s :: acc)) := by
  have hstep : executeTaskStep env st task s =
      ([], Except.error ("Agent not available: " ++ s.agent)) := by
    unfold executeTaskStep
    rw [hreg]
    simp
  refine ⟨hstep, ?_⟩
  intro hcrit hapf h1 h2
  have hcc : canContinueOnError task s ("Agent not available: " ++ s.agent) = true := by
    unfold canContinueOnError
    rw [hcrit, h1, h2]
    simp [hapf]
  simp only [runSteps, hstep, hcc]
  simp

/-- Witness for C4: executing the unregistered first step records its failure
outcome and hands the remaining plan on unchanged. -/
theorem claim4_witness :
    envC4.agents.contains stepUnreg.agent = false ∧
    stepUnreg.critical = false ∧
    executeTaskStep envC4 [] taskW4 stepUnreg =
      ([], Except.error ("Agent not available: " ++ stepUnreg.agent)) ∧
    runSteps envC4 [] taskW4 [stepUnreg, stepTurnOn] [] =
      runSteps envC4 [] taskW4 [stepTurnOn]
        [mkFailureOutcome ("Agent not available: " ++ stepUnreg.agent) stepUnreg] := by
  have h := claim4_unregistered_agent envC4 [] taskW4 stepUnreg [stepTurnOn] [] (by decide)
  exact ⟨by decide, by decide, h.1,
    h.2 (by decide) (by decide) (by decide) (by decide)⟩

/-- Counterexample to C4 as stated: the whole task does not fail fast — the
unregistered first step yields a failure outcome, the second step still runs
and succeeds, and the task ends marked completed. -/
theorem claim4_counterexample :
    (executeTask envC4 [] taskC4).isCompleted = true ∧
    (executeTask envC4 [] taskC4).results.length = 2 ∧
    ((executeTask envC4 [] taskC4).results.head?.map (fun o => o.error)) =
      some (some ("Agent not available: automation")) ∧
    ((executeTask envC4 [] taskC4).results.getLast?.map (fun o => o.success)) =
      some true := by decide

/-- Every successful step outcome object leaves the `complete` property
absent: `executeTaskStep` only ever returns the `{success, result, step}`
literal, so the early-break test of `executeTask` can never see it. -/
theorem executeTaskStep_ok_complete_none (env : Env) (st : List Task)
    (task : Task) (s : Step) (o : StepOutcome)
    (h : (executeTaskStep env st task s).2 = Except.ok o) : o.complete = none := by
  simp only [executeTaskStep] at h
  repeat' split at h
  all_goals simp at h
  all_goals rw [← h]
  all_goals rfl

/-- First step of the C10 failing input: the agent result carries a truthy
`complete` field. -/
def stepAnalyze : Step := { agent := "reasoning", action := "analyze", parameters := [], critical := false }

/-- Second step of the C10 failing input. -/
def stepSummarize : Step := { agent := "reasoning", action := "summarize", parameters := [], critical := false }

/-- Two-step plan whose first agent result says the task is complete. -/
def taskC10 : Task := { id := "t10", plan := { intent := "x", steps := [stepAnalyze, stepSummarize] } }

/-- Environment where the reasoning agent resolves the first action with a
value whose `complete` field is true. -/
def envC10 : Env :=
  { agents := ["reasoning"]
    invoke := fun s =>
      if s.action == "analyze" then
        InvokeResult.ok { complete := true, response := some ("done") }
      else InvokeResult.ok { complete := false, response := some ("later") } }

/-- Claim C10, evaluated at the failing input: although the first step's
agent value has `complete = true`, the loop tests `stepResult.complete` on
the outcome wrapper, which never carries that property, so the second step
is executed anyway and both outcomes are aggregated. -/
theorem claim10_break_never_fires :
    (match envC10.invoke stepAnalyze with
     | InvokeResult.ok v => v.complete
     | InvokeResult.err _ => false
     | InvokeResult.timeout => false) = true ∧
    (executeTask envC10 [] taskC10).results.length = 2 ∧
    (executeTask envC10 [] taskC10).isCompleted = true := by decide

/-- Membership in an `enqueue` result: the new task or an old one. -/
theorem mem_enqueue {t v : Task} : ∀ {q : List Task},
    v ∈ enqueue t q ↔ v = t ∨ v ∈ q := by
  intro q
  induction q with
  | nil => simp [enqueue]
  | cons u us ih =>
    by_cases hp : u.priority ≤ t.priority
    · simp only [enqueue, if_pos hp, List.mem_cons, ih]
      tauto
    · simp only [enqueue, if_neg hp, List.mem_cons]

/-- `enqueue` preserves the dispatch order when the new task arrived after
every task already queued. -/
theorem enqueue_pairwise {t : Task} : ∀ {q : List Task},
    List.Pairwise queueOrder q → (∀ u ∈ q, u.created < t.created) →
    List.Pairwise queueOrder (enqueue t q) := by
  intro q
  induction q with
  | nil => intro _ _; simp [enqueue]
  | cons u us ih =>
    intro hq hc
    rw [List.pairwise_cons] at hq
    by_cases hp : u.priority ≤ t.priority
    · rw [enqueue, if_pos hp, List.pairwise_cons]
      refine ⟨?_, ih hq.2 (fun x hx => hc x (List.mem_cons_of_mem u hx))⟩
      intro v hv
      rcases mem_enqueue.mp hv with hvt | hvu
      · subst hvt
        rcases lt_or_eq_of_le hp with hlt | heq
        · exact Or.inl hlt
        · exact Or.inr ⟨heq, hc u (List.mem_cons_self u us)⟩
      · exact hq.1 v hvu
    · rw [enqueue, if_neg hp, List.pairwise_cons]
      push_neg at hp
      refine ⟨?_, List.pairwise_cons.mpr hq⟩
      intro v hv
      rcases List.mem_cons.mp hv with hvu | hvus
      · subst hvu; exact Or.inl hp
      · have huv := hq.1 v hvus
        have : u.priority ≤ v.priority := by
          rcases huv with h | h
          · exact le_of_lt h
          · exact le_of_eq h.1
        exact Or.inl (lt_of_lt_of_le hp this)

/-- When every queued task has strictly greater priority than `t`, pushing
and stably sorting puts `t` in front. -/
theorem enqueue_eq_front {t : Task} {q : List Task}
    (h : ∀ u ∈ q, ¬ u.priority ≤ t.priority) : enqueue t q = t :: q := by
  cases q with
  | nil => rfl
  | cons u us =>
    rw [enqueue, if_neg (h u (List.mem_cons_self u us))]

/-- When no queued task has strictly smaller priority than `x`, the stable
insertion of `x` puts it in front. -/
theorem insFront_eq_cons {x : Task} {q : List Task}
    (h : ∀ u ∈ q, ¬ u.priority < x.priority) : insFront x q = x :: q := by
  cases q with
  | nil => rfl
  | cons u us =>
    rw [insFront, if_neg (h u (List.mem_cons_self u us))]

/-- On a queue already sorted by priority, the source `addTask` (push, then
stable sort) is exactly the stable insertion `enqueue`. -/
theorem addTask_eq_enqueue {t : Task} : ∀ {q : List Task},
    List.Pairwise (fun a b => a.priority ≤ b.priority) q →
    addTask q t = enqueue t q := by
  intro q
  induction q with
  | nil => intro _; rfl
  | cons x q' ih =>
    intro hq
    rw [List.pairwise_cons] at hq
    have hstep : addTask (x :: q') t = insFront x (addTask q' t) := rfl
    rw [hstep, ih hq.2]
    by_cases hxt : x.priority ≤ t.priority
    · rw [enqueue, if_pos hxt]
      apply insFront_eq_cons
      intro u hu
      rcases mem_enqueue.mp hu with hut | huq
      · subst hut; omega
      · have := hq.1 u huq; omega
    · push_neg at hxt
      rw [enqueue, if_neg (by omega)]
      have hq'gt : ∀ u ∈ q', ¬ u.priority ≤ t.priority := by
        intro u hu
        have := hq.1 u hu
        omega
      rw [enqueue_eq_front hq'gt, insFront, if_pos hxt,
        insFront_eq_cons (fun u hu => by have := hq.1 u hu; omega)]

/-- Folding submissions through `addTask` keeps the queue in dispatch order,
provided submissions arrive with strictly increasing `created` stamps. -/
theorem submit_fold_pairwise : ∀ (ts : List Task) (q : List Task),
    List.Pairwise queueOrder q →
    (∀ u ∈ q, ∀ s ∈ ts, u.created < s.created) →
    List.Pairwise (fun a b => a.created < b.created) ts →
    List.Pairwise queueOrder (ts.foldl addTask q) := by
  intro ts
  induction ts with
  | nil => intro q hq _ _; exact hq
  | cons t ts' ih =>
    intro q hq hbound hts
    rw [List.pairwise_cons] at hts
    have hsorted : List.Pairwise (fun a b : Task => a.priority ≤ b.priority) q := by
      refine hq.imp ?_
      intro a b hab
      rcases hab with h | h
      · exact le_of_lt h
      · exact le_of_eq h.1
    have hfold : (t :: ts').foldl addTask q = ts'.foldl addTask (addTask q t) := rfl
    rw [hfold, addTask_eq_enqueue hsorted]
    apply ih
    · exact enqueue_pairwise hq
        (fun u hu => hbound u hu t (List.mem_cons_self t ts'))
    · intro u hu s hs
      rcases mem_enqueue.mp hu with hut | huq
      · subst hut; exact hts.1 s hs
      · exact hbound u huq s (List.mem_cons_of_mem t hs)
    · exact hts.2

/-- Claim C3.  Starting from the empty queue, any sequence of submissions
with strictly increasing arrival stamps leaves the pending queue sorted by
ascending priority, and within one priority tier in arrival (FIFO) order —
`processTasks` dequeues from the head (`nextTask`), so dispatch follows this
order. -/
theorem claim3_priority_fifo (ts : List Task)
    (h : List.Pairwise (fun a b => a.created < b.created) ts) :
    List.Pairwise (fun a b => a.priority ≤ b.priority) (ts.foldl addTask []) ∧
    List.Pairwise queueOrder (ts.foldl addTask []) := by
  have hq : List.Pairwise queueOrder (ts.foldl addTask []) :=
    submit_fold_pairwise ts [] List.Pairwise.nil (by simp) h
  refine ⟨?_, hq⟩
  refine hq.imp ?_
  intro a b hab
  rcases hab with hlt | heq
  · exact le_of_lt hlt
  · exact le_of_eq heq.1

/-- First submitted task of the C3 witness: priority 2, arrival 0. -/
def t3a : Task := { id := "a", priority := 2, created := 0 }

/-- Second submitted task of the C3 witness: priority 0, arrival 1. -/
def t3b : Task := { id := "b", priority := 0, created := 1 }

/-- Third submitted task of the C3 witness: priority 2, arrival 2. -/
def t3c : Task := { id := "c", priority := 2, created := 2 }

/-- Witness for C3: submitting priorities 2, 0, 2 queues the priority-0 task
first and keeps the two priority-2 tasks in submission order. -/
theorem claim3_witness :
    List.Pairwise (fun a b : Task => a.created < b.created) [t3a, t3b, t3c] ∧
    List.Pairwise (fun a b : Task => a.priority ≤ b.priority)
      ([t3a, t3b, t3c].foldl addTask []) ∧
    List.Pairwise queueOrder ([t3a, t3b, t3c].foldl addTask []) ∧
    ([t3a, t3b, t3c].foldl addTask []).map (fun t => t.id) = ["b", "a", "c"] := by
  have h := claim3_priority_fifo [t3a, t3b, t3c] (by decide)
  exact ⟨by decide, h.1, h.2, by decide⟩

/-- Claim C5.  For a completed task (the compiled results list is nonempty —
an empty list never produces a completed task, since `generateSuccessResponse`
crashes on it), the response branch taken by `generateUnifiedResponse` is the
classification: success exactly when every outcome succeeded, partial exactly
when some but not every outcome succeeded, failure exactly when none did. -/
theorem claim5_classification (env : Env) (task : Task) (o : StepOutcome)
    (os : List StepOutcome) :
    generateUnifiedResponse env task (o :: os) =
      (match classifyResults (o :: os) with
       | Classification.success =>
         generateSuccessResponse task (o :: os) (responseTone env)
       | Classification.partialSuccess =>
         Except.ok (generatePartialSuccessResponse task (o :: os) (responseTone env))
       | Classification.failure =>
         Except.ok (generateFailureResponse task (o :: os) (responseTone env))) ∧
    (classifyResults (o :: os) = Classification.success ↔
      ∀ r ∈ o :: os, r.success = true) ∧
    (classifyResults (o :: os) = Classification.partialSuccess ↔
      ((∃ r ∈ o :: os, r.success = true) ∧ ¬ ∀ r ∈ o :: os, r.success = true)) ∧
    (classifyResults (o :: os) = Classification.failure ↔
      ∀ r ∈ o :: os, r.success = false) := by
  have hallIff : ((o :: os).all (fun r => r.success) = true) ↔
      ∀ r ∈ o :: os, r.success = true := List.all_eq_true
  have hanyIff : ((o :: os).any (fun r => r.success) = true) ↔
      ∃ r ∈ o :: os, r.success = true := List.any_eq_true
  have h1 : generateUnifiedResponse env task (o :: os) =
      (match classifyResults (o :: os) with
       | Classification.success =>
         generateSuccessResponse task (o :: os) (responseTone env)
       | Classification.partialSuccess =>
         Except.ok (generatePartialSuccessResponse task (o :: os) (responseTone env))
       | Classification.failure =>
         Except.ok (generateFailureResponse task (o :: os) (responseTone env))) := by
    unfold generateUnifiedResponse classifyResults
    cases hall : (o :: os).all (fun r => r.success) <;>
      cases hany : (o :: os).any (fun r => r.success) <;> simp
  have h2 : classifyResults (o :: os) = Classification.success ↔
      ∀ r ∈ o :: os, r.success = true := by
    unfold classifyResults
    cases hall : (o :: os).all (fun r => r.success)
    · have hna : ¬ ∀ r ∈ o :: os, r.success = true := by
        intro hf
        simp [hallIff.mpr hf] at hall
      cases hany : (o :: os).any (fun r => r.success)
      · exact iff_of_false (by simp) hna
      · exact iff_of_false (by simp) hna
    · exact iff_of_true (by simp) (hallIff.mp hall)
  have h3 : classifyResults (o :: os) = Classification.partialSuccess ↔
      ((∃ r ∈ o :: os, r.success = true) ∧ ¬ ∀ r ∈ o :: os, r.success = true) := by
    unfold classifyResults
    cases hall : (o :: os).all (fun r => r.success)
    · have hna : ¬ ∀ r ∈ o :: os, r.success = true := by
        intro hf
        simp [hallIff.mpr hf] at hall
      cases hany : (o :: os).any (fun r => r.success)
      · have hne : ¬ ∃ r ∈ o :: os, r.success = true := by
          intro he
          simp [hanyIff.mpr he] at hany
        exact iff_of_false (by simp) (fun h => hne h.1)
      · exact iff_of_true (by simp) ⟨hanyIff.mp hany, hna⟩
    · exact iff_of_false (by simp) (fun h => h.2 (hallIff.mp hall))
  have h4 : classifyResults (o :: os) = Classification.failure ↔
      ∀ r ∈ o :: os, r.success = false := by
    unfold classifyResults
    cases hall : (o :: os).all (fun r => r.success)
    · cases hany : (o :: os).any (fun r => r.success)
      · have hforall : ∀ r ∈ o :: os, r.success = false := by
          intro r hr
          cases hs : r.success
          · rfl
          · exact absurd (hanyIff.mpr ⟨r, hr, hs⟩) (by simp [hany])
        exact iff_of_true (by simp) hforall
      · rcases hanyIff.mp hany with ⟨r, hr, hs⟩
        have hnf : ¬ ∀ x ∈ o :: os, x.success = false := by
          intro hf
          rw [hf r hr] at hs
          cases hs
        exact iff_of_false (by simp) hnf
    · have ho := hallIff.mp hall o (List.mem_cons_self o os)
      have hnf : ¬ ∀ x ∈ o :: os, x.success = false := by
        intro hf
        rw [hf o (List.mem_cons_self o os)] at ho
        cases ho
      exact iff_of_false (by simp) hnf
  exact ⟨h1, h2, h3, h4⟩

/-- Claim C6.  For a sensitive step with no prior confirmation of its exact
action in the task context, a registered available agent and a registered
security agent: exactly one confirmation request is emitted, it precedes any
agent invocation, and the agent is invoked exactly when the confirmation was
granted (a denial throws the confirmation error instead). -/
theorem claim6_confirmation_protocol (env : Env) (st : List Task) (task : Task)
    (s : Step)
    (hsens : isSensitiveOperation s = true)
    (hnc : task.context.confirmedOperations.contains s.action = false)
    (hreg : env.agents.contains s.agent = true)
    (hsec : env.agents.contains ("security") = true)
    (havail : isAgentAvailable env st s.agent = true) :
    (executeTaskStep env st task s).1.countP Event.isConfirmReq = 1 ∧
    (executeTaskStep env st task s).1.head? =
      some (Event.confirmRequest task.id s.action) ∧
    (env.confirm s = false →
      (executeTaskStep env st task s).1.countP Event.isInvoke = 0 ∧
      (executeTaskStep env st task s).2 =
        Except.error ("Sensitive operation requires confirmation")) ∧
    (env.confirm s = true →
      (executeTaskStep env st task s).1 =
        [Event.confirmRequest task.id s.action, Event.invoke s.agent s.action]) := by
  have hconf : confirmSensitiveOperation env task s =
      ([Event.confirmRequest task.id s.action], env.confirm s) := by
    unfold confirmSensitiveOperation
    rw [hnc, hsec]
    simp
  cases hcf : env.confirm s
  · have hstep : executeTaskStep env st task s =
        ([Event.confirmRequest task.id s.action],
         Except.error ("Sensitive operation requires confirmation")) := by
      unfold executeTaskStep
      rw [hreg, havail]
      simp [hsens, hconf, hcf]
    refine ⟨?_, ?_, ?_, ?_⟩ <;>
      simp [hstep, hcf, List.countP_cons, List.countP_nil,
        Event.isConfirmReq, Event.isInvoke]
  · have hstep1 : (executeTaskStep env st task s).1 =
        [Event.confirmRequest task.id s.action, Event.invoke s.agent s.action] := by
      unfold executeTaskStep
      rw [hreg, havail]
      simp [hsens, hconf, hcf]
      cases env.invoke s <;> simp
    refine ⟨?_, ?_, ?_, ?_⟩ <;>
      simp [hstep1, hcf, List.countP_cons, List.countP_nil,
        Event.isConfirmReq, Event.isInvoke]

/-- A bare task for the C6 witness. -/
def taskW6 : Task := { id := "w6" }

/-- Environment for the C6 witness: smart-home and security agents, denying
confirmations. -/
def envW6 : Env :=
  { agents := ["smart_home", "security"], confirm := fun _ => false
    invoke := fun _ => InvokeResult.ok { complete := false, response := some ("ok") } }

/-- Witness for C6 at a concrete sensitive step with a denying gate. -/
theorem claim6_witness :
    isSensitiveOperation stepDelete = true ∧
    taskW6.context.confirmedOperations.contains stepDelete.action = false ∧
    envW6.agents.contains stepDelete.agent = true ∧
    envW6.agents.contains ("security") = true ∧
    isAgentAvailable envW6 [] stepDelete.agent = true ∧
    ((executeTaskStep envW6 [] taskW6 stepDelete).1.countP Event.isConfirmReq = 1 ∧
     (executeTaskStep envW6 [] taskW6 stepDelete).1.head? =
       some (Event.confirmRequest taskW6.id stepDelete.action) ∧
     (envW6.confirm stepDelete = false →
       (executeTaskStep envW6 [] taskW6 stepDelete).1.countP Event.isInvoke = 0 ∧
       (executeTaskStep envW6 [] taskW6 stepDelete).2 =
         Except.error ("Sensitive operation requires confirmation")) ∧
     (envW6.confirm stepDelete = true →
       (executeTaskStep envW6 [] taskW6 stepDelete).1 =
         [Event.confirmRequest taskW6.id stepDelete.action,
          Event.invoke stepDelete.agent stepDelete.action])) :=
  ⟨by decide, by decide, by decide, by decide, by decide,
   claim6_confirmation_protocol envW6 [] taskW6 stepDelete
     (by decide) (by decide) (by decide) (by decide) (by decide)⟩

/-- Claim C7.  `processUserRequest` is total on every environment: it either
accepts (returning the task id and the estimated time of the created plan) or
rejects with the thrown message and its classified reason — one of the five
reason classes of `classifyError`. -/
theorem claim7_submit_total (env : SubmitEnv) (userInput : String) (context : Ctx) :
    (∃ plan : Plan,
      (performSecurityCheck env context >>= fun _ => createTaskPlan env) =
        Except.ok plan ∧
      (processUserRequest env userInput context).1 =
        SubmitResult.accepted env.freshId ("Request received and being processed")
          (estimateTaskTime plan)) ∨
    (∃ msg : String,
      (processUserRequest env userInput context).1 =
        SubmitResult.rejected env.freshId msg (classifyError msg) ∧
      classifyError msg ∈ ["security", "authorization", "timeout", "network", "unknown"]) := by
  have hcls : ∀ m : String, classifyError m ∈
      ["security", "authorization", "timeout", "network", "unknown"] := by
    intro m
    unfold classifyError
    repeat' split
    all_goals simp
  cases h : performSecurityCheck env context >>= fun _ => createTaskPlan env with
  | ok plan =>
    left
    refine ⟨plan, rfl, ?_⟩
    unfold processUserRequest
    rw [h]
  | error e =>
    right
    refine ⟨e, ?_, hcls e⟩
    unfold processUserRequest
    rw [h]

/-- An old terminal task: completed at time 0. -/
def taskDoneOld : Task := { id := "d", status := TaskStatus.completed, completed := some 0 }

/-- An executing task with no completion timestamp. -/
def taskRunning : Task := { id := "r", status := TaskStatus.executing }

/-- Claim C8.  Over a store in which pending/executing tasks have no
completion timestamp (as the state machine guarantees), the sweep removes a
task exactly when its completion timestamp is more than five minutes old, and
never removes a pending or executing task; surviving entries are returned
unmodified by the filter. -/
theorem claim8_retention_sweep (now : Int) (tasks : List Task)
    (hwf : ∀ t ∈ tasks,
      (t.status = TaskStatus.pending ∨ t.status = TaskStatus.executing) →
      t.completed = none) :
    (∀ t ∈ tasks, (t ∈ cleanupCompletedTasks now tasks ↔
      ¬ ∃ c, t.completed = some c ∧ now - c > 300000)) ∧
    (∀ t ∈ tasks,
      (t.status = TaskStatus.pending ∨ t.status = TaskStatus.executing) →
      t ∈ cleanupCompletedTasks now tasks) := by
  have hexp : ∀ t : Task, taskExpired now t = false ↔
      ¬ ∃ c, t.completed = some c ∧ now - c > 300000 := by
    intro t
    unfold taskExpired
    cases hc : t.completed with
    | none => simp
    | some c => simp
  have hmem : ∀ t ∈ tasks, (t ∈ cleanupCompletedTasks now tasks ↔
      taskExpired now t = false) := by
    intro t ht
    unfold cleanupCompletedTasks
    rw [List.mem_filter]
    constructor
    · intro h
      have := h.2
      simp at this
      exact this
    · intro h
      exact ⟨ht, by simp [h]⟩
  constructor
  · intro t ht
    rw [hmem t ht, hexp t]
  · intro t ht hs
    rw [hmem t ht, hexp t, hwf t ht hs]
    simp

/-- Witness for C8: at time 301000 the five-minute window has elapsed for a
task completed at time 0, while the executing task is untouched. -/
theorem claim8_witness :
    (∀ t ∈ [taskDoneOld, taskRunning],
      (t.status = TaskStatus.pending ∨ t.status = TaskStatus.executing) →
      t.completed = none) ∧
    ((∀ t ∈ [taskDoneOld, taskRunning],
      (t ∈ cleanupCompletedTasks 301000 [taskDoneOld, taskRunning] ↔
        ¬ ∃ c, t.completed = some c ∧ 301000 - c > 300000)) ∧
     (∀ t ∈ [taskDoneOld, taskRunning],
      (t.status = TaskStatus.pending ∨ t.status = TaskStatus.executing) →
      t ∈ cleanupCompletedTasks 301000 [taskDoneOld, taskRunning])) :=
  ⟨by decide, claim8_retention_sweep 301000 [taskDoneOld, taskRunning] (by decide)⟩

/-- Claim C9, amended.  `registerAgent` fails only for kinds with no
`agentConfig` entry; a call whose kind already has a registration succeeds
and silently replaces the stored instance (JavaScript `Map.set`), so a
duplicate registration is neither refused nor left unchanged. -/
theorem claim9_register_overwrites (agents : List (String × Nat))
    (agentType : String) (inst : Nat) :
    ((agentConfig agentType).isSome = true →
      registerAgent agents agentType inst = Except.ok (mapSet agents agentType inst) ∧
      mapGet (mapSet agents agentType inst) agentType = some inst) ∧
    ((agentConfig agentType).isSome = false →
      registerAgent agents agentType inst =
        Except.error ("Unknown agent type: " ++ agentType)) := by
  have hget : ∀ m : List (String × Nat),
      mapGet (mapSet m agentType inst) agentType = some inst := by
    intro m
    induction m with
    | nil => simp [mapSet, mapGet]
    | cons kv rest ih =>
      obtain ⟨k0, v0⟩ := kv
      cases hk : (k0 == agentType)
      · simp [mapSet, mapGet, hk, ih]
      · simp [mapSet, mapGet, hk]
  constructor
  · intro hsome
    cases hcfg : agentConfig agentType with
    | none => rw [hcfg] at hsome; simp at hsome
    | some cfg =>
      constructor
      · unfold registerAgent
        rw [hcfg]
      · exact hget agents
  · intro hnone
    cases hcfg : agentConfig agentType with
    | some cfg => rw [hcfg] at hnone; simp at hnone
    | none =>
      unfold registerAgent
      rw [hcfg]

/-- Witness for C9 at a concrete duplicate registration of `face`. -/
theorem claim9_witness :
    (agentConfig ("face")).isSome = true ∧
    registerAgent [("face", 1)] ("face") 2 =
      Except.ok (mapSet [("face", 1)] ("face") 2) ∧
    mapGet (mapSet [("face", 1)] ("face") 2) ("face") = some 2 :=
  ⟨by decide,
   ((claim9_register_overwrites [("face", 1)] ("face") 2).1 (by decide)).1,
   ((claim9_register_overwrites [("face", 1)] ("face") 2).1 (by decide)).2⟩

/-- Counterexample to C9 as stated: re-registering `voice` does not fail with
a duplicate-agent error — it succeeds and replaces the stored instance. -/
theorem claim9_counterexample :
    registerAgent [("voice", 1)] ("voice") 2 = Except.ok [("voice", 2)] ∧
    mapGet (mapSet [("voice", 1)] ("voice") 2) ("voice") = some 2 := by decide

end MAC
